import Mathlib

/-!
Verification development for the carrot coroutine library (github.com/nvlled/carrot).

The scheduling core is `Control` (coroutine handle and per-task state machine),
the `katana` rendezvous that pairs one driver-side `update()` with one
coroutine-side suspension interval, the `Script` root driver, and the
`sliceSet` container.  The Go implementation runs every coroutine body on its
own goroutine and synchronizes it with the driver through an unbuffered
channel; the sanctioned discipline (one body segment per `update()` call,
never two sides running at once) makes the system sequential, and this file
embeds that sequential semantics directly:

* a coroutine body is a deep-embedded program `Co`; `runCo` executes one
  segment of it, from (re)entry up to the next suspension, return, or panic,
  at a given wall-clock time, collecting the side effects (`emit` labels) it
  records and the children it spawns via `StartAsync`;
* a `Control` holds the atomic state and action bit words, the replaceable
  body, the goroutine's current suspension site (`RunPoint`), and the child
  controls; `updateF` is `Control.update`, with an explicit fuel argument
  that bounds the depth of the child-tree recursion (the Go recursion is
  bounded by the tree depth; every theorem below holds for any
  sufficiently large fuel, and the fuel needed is the tree depth plus one);
* wall-clock time is a natural number of nanoseconds passed into each update
  (Go `time.Duration` is an integer nanosecond count; `Duration.Microseconds`
  truncates by division by 1000).
-/

namespace Carrot

/-! ## sliceSet (slice_set.go)

`Add` appends unless `slices.Index` finds the element.  `Remove` looks up the
first index and calls `slices.Delete(slice.items, index, index+1)` but drops
the returned slice, so the receiver keeps its original length: the elements
after the index shift left in the shared backing array and the final element
stays in place, i.e. the observed contents become
`take i ++ drop (i+1) ++ [last]`.  `Each` walks the items in order, calling
the function once per element; we collect the visits. -/

namespace sliceSet

variable {T : Type} [DecidableEq T]

/-- `sliceSet.Add`: append `x` unless it is already present. -/
def Add (l : List T) (x : T) : List T :=
  if x ∈ l then l else l ++ [x]

/-- The receiver-visible effect of `slices.Delete(s, i, i+1)` when the
returned slice is discarded: the slice header keeps its length, elements
after `i` shift left, and the last backing slot keeps its old value. -/
def goDeleteDropped (l : List T) (i : Nat) : List T :=
  (l.take i ++ l.drop (i + 1)) ++ l.drop (l.length - 1)

/-- `sliceSet.Remove`: find the first index of `x`; if present, run
`slices.Delete` on it — with the result dropped, as in the source. -/
def Remove (l : List T) (x : T) : List T :=
  match l.findIdx? (fun y => decide (y = x)) with
  | none => l
  | some i => goDeleteDropped l i

/-- `sliceSet.Clear`: truncate to length zero. -/
def Clear (_l : List T) : List T := ([] : List T)

/-- `sliceSet.Each`: call `fn` once per element, in slice order; the
recorded outputs are concatenated.  (The early return on an empty slice is
observationally the empty sweep.) -/
def Each (l : List T) (fn : T → List Nat) : List Nat :=
  (l.map fn).flatten

end sliceSet

/-! ## Coroutine bodies

A deep embedding of the user-supplied coroutine bodies.  `yield` is
`ctrl.Yield()`; `emit` is an observable side effect (any statement the body
runs); `spawn` is `ctrl.StartAsync(body)`; `sleep` is `ctrl.Sleep(d)` with
`d` in nanoseconds; `sleepW` is the runtime form of a body suspended inside
`Sleep`'s loop, remembering the recorded start time; `throwE` is a body
panicking with a non-`ErrCancelled` value. -/

inductive Co where
  | ret : Co
  | yield (k : Co) : Co
  | emit (e : Nat) (k : Co) : Co
  | spawn (b : Co) (k : Co) : Co
  | sleep (d : Nat) (k : Co) : Co
  | sleepW (s d : Nat) (k : Co) : Co
  | throwE (n : Nat) : Co
deriving DecidableEq, Repr

/-- How one body segment ends: suspended at a yield with a continuation,
returned normally, or panicked with a non-cancellation value. -/
inductive SegEnd where
  | suspended (k : Co) : SegEnd
  | returned : SegEnd
  | threw (n : Nat) : SegEnd
deriving DecidableEq, Repr

/-- Execute one segment of a body at wall-clock time `t` (nanoseconds):
statements run until the next `Yield` suspends, the body returns, or it
panics.  Returns the emitted effects in order, the bodies passed to
`StartAsync` in order, and the way the segment ended.  `Control.Sleep`
records `time.Now()` and yields before its first elapsed-time check; the
check compares `elapsed.Microseconds() >= duration.Microseconds()`, i.e.
both sides truncated to whole microseconds. -/
def runCo : Co → Nat → List Nat × (List Co × SegEnd)
  | .ret, _ => ([], ([], .returned))
  | .yield k, _ => ([], ([], .suspended k))
  | .emit e k, t =>
      let r := runCo k t
      (e :: r.1, r.2)
  | .spawn b k, t =>
      let r := runCo k t
      (r.1, (b :: r.2.1, r.2.2))
  | .sleep d k, t => ([], ([], .suspended (.sleepW t d k)))
  | .sleepW s d k, t =>
      if d / 1000 ≤ (t - s) / 1000 then runCo k t
      else ([], ([], .suspended (.sleepW s d k)))
  | .throwE n, _ => ([], ([], .threw n))

/-! ## Panic values and catchCancellation -/

/-- A Go panic value as seen by `recover()`: either `ErrCancelled` or some
other error. -/
inductive PanicVal where
  | errCancelled : PanicVal
  | err (n : Nat) : PanicVal
deriving DecidableEq, Repr

/-- `catchCancellation` (the deferred recover wrapped around
`ctrl.coroutine(ctrl)` in `startCoroutine`): `none` models a normal return
(`recover()` gives nil); `ErrCancelled` is swallowed; any other panic value
is re-raised unchanged. -/
def catchCancellation : Option PanicVal → Option PanicVal
  | some .errCancelled => none
  | p => p

/-! ## Control state -/

/-- The two atomic words of a `Control`, split into bits: `running` is
`stateRunning`, `stopping` is `stateStopping`, `canceled` is `stateCancel`
(the cancellation latch); `actCancel`/`actRestart` are `actionCancel` and
`actionRestart` in the `action` word.  The single-threaded discipline makes
the atomics plain fields. -/
structure Flags where
  running : Bool
  stopping : Bool
  canceled : Bool
  actCancel : Bool
  actRestart : Bool
deriving DecidableEq, Repr

/-- Where a control's goroutine (`loopRunner`) currently sits blocked in
`kanata.YieldRight()`: at the top of the loop before a body entry
(`atTop`), suspended mid-body at a `Yield` (`inBody k`), suspended inside
`waitForSubsToEnd`'s wait loop (`inWait`), or dead after re-raising a
non-cancellation panic (`crashed`). -/
inductive RunPoint where
  | atTop : RunPoint
  | inBody (k : Co) : RunPoint
  | inWait : RunPoint
  | crashed (n : Nat) : RunPoint
deriving DecidableEq, Repr

/-- A `Control`: state/action bits, the replaceable coroutine body, the
goroutine's suspension site, and the owned child controls
(`subControls`). -/
inductive Control where
  | mk (flags : Flags) (co : Option Co) (point : RunPoint) (subs : List Control) : Control

namespace Control

def flags : Control → Flags
  | .mk f _ _ _ => f

def co : Control → Option Co
  | .mk _ c _ _ => c

def point : Control → RunPoint
  | .mk _ _ p _ => p

def subs : Control → List Control
  | .mk _ _ _ s => s

/-- `Control.IsRunning`: the `stateRunning` bit. -/
def IsRunning (c : Control) : Bool := c.flags.running

/-- `Control.isRestarting`: the `actionRestart` bit. -/
def isRestarting (c : Control) : Bool := c.flags.actRestart

/-- `Control.isCancelling`: the `actionCancel` bit. -/
def isCancelling (c : Control) : Bool := c.flags.actCancel

/-- `Control.isCanceled`: the `stateCancel` latch. -/
def isCanceled (c : Control) : Bool := c.flags.canceled

/-- `Control.IsDone`: not running and not flagged for restart. -/
def IsDone (c : Control) : Bool := !c.IsRunning && !c.isRestarting

/-- `Control.Cancel`: `action.Store(actionCancel)` — the whole action word
is overwritten, so a pending Restart bit is dropped. -/
def Cancel : Control → Control
  | .mk f c p s => .mk { f with actCancel := true, actRestart := false } c p s

/-- `Control.Restart`: `bits.Set(&action, actionRestart)` — the Restart bit
is OR-ed in, and a pending Cancel bit is preserved. -/
def Restart : Control → Control
  | .mk f c p s => .mk { f with actRestart := true } c p s

/-- Body replacement (`ctrl.coroutine = newCoroutine`). -/
def setCo (nb : Option Co) : Control → Control
  | .mk f _ p s => .mk f nb p s

/-- `Control.Transition`: replace the body, then `Cancel()`, then
`Restart()`. -/
def Transition (nb : Co) (c : Control) : Control :=
  ((c.setCo (some nb)).Cancel).Restart

end Control

/-- `applyRestart`: unset the `stateCancel` latch and both action bits. -/
def applyRestartF (f : Flags) : Flags :=
  { f with canceled := false, actCancel := false, actRestart := false }

/-- `applyCancel`: set the `stateCancel` latch, unset `actionCancel`
(`actionRestart` is left alone). -/
def applyCancelF (f : Flags) : Flags :=
  { f with canceled := true, actCancel := false }

/-- `NewControl`: a fresh control with no body.  Its `loopRunner` goroutine
immediately runs `setRunning(true)` and then blocks at the top-of-loop
`kanata.YieldRight()`, so the `stateRunning` bit starts set. -/
def NewControl : Control :=
  .mk { running := true, stopping := false, canceled := false,
        actCancel := false, actRestart := false } none .atTop []

/-- `Control.initialize` (spelled `initCo` here): install the body and
request a Restart. -/
def Control.initCo (b : Option Co) (c : Control) : Control :=
  (c.setCo b).Restart

/-- `allocCoroutine`: `mud.Alloc(coroutinePool, NewControl)`.  Pool
recycling is abstracted as a fresh allocation. -/
def allocCoroutine : Control := NewControl

/-- The child control built by `StartAsync`: allocate and initialize. -/
def mkFresh (b : Co) : Control := allocCoroutine.initCo (some b)

/-! ## The driver step

`resumeRight` models one `kanata.YieldLeft()` from `Control.update`: the
control's goroutine runs from its current suspension site to its next
`kanata.YieldRight()` (or dies), synchronously.  `enterWait` is the prefix
of `waitForSubsToEnd` executed when the body exits: set `stateStopping`,
`Cancel()` every registered child, then check them all; if any child is not
done, suspend inside the wait loop (the `defer` unsets `stateStopping` only
when the function returns).  `recheckWait` is one iteration of that wait
loop on a later resume.  On completion the children are released to the
pool and the child set is truncated, `stateStopping` is unset by the defer,
and `loopRunner` runs `setRunning(false)` before blocking at the top of its
loop again. -/

def enterWait (f : Flags) (subs : List Control) :
    Flags × RunPoint × List Control :=
  let subs1 := subs.map Control.Cancel
  if subs1.all Control.IsDone then
    ({ f with stopping := false, running := false }, .atTop, [])
  else
    ({ f with stopping := true }, .inWait, subs1)

def recheckWait (f : Flags) (subs : List Control) :
    Flags × RunPoint × List Control :=
  if subs.all Control.IsDone then
    ({ f with stopping := false, running := false }, .atTop, [])
  else
    (f, .inWait, subs)

/-- Conclude one body segment: register the spawned children, then act on
the segment's end.  A suspension hands control back to the driver; a normal
return enters `waitForSubsToEnd`; a non-cancellation panic passes through
`catchCancellation`, which re-raises it, killing the goroutine. -/
def afterSeg (f : Flags) (subs : List Control) :
    List Co × SegEnd → Flags × RunPoint × List Control
  | (sp, e) =>
      let subs1 := subs ++ sp.map mkFresh
      match e with
      | .suspended k => (f, .inBody k, subs1)
      | .returned => enterWait f subs1
      | .threw n => (f, .crashed n, subs1)

/-- One `kanata.YieldLeft()`: advance the goroutine from its suspension
site to its next suspension (or death).  At `atTop`, `loopRunner` runs
`setRunning(true)` and enters `startCoroutine`, which runs the body's first
segment — with no cancellation check before the first `Yield`.  At
`inBody`, the pending `Yield` returns and immediately panics with
`ErrCancelled` if the latch is set (caught by `catchCancellation`, leading
into `waitForSubsToEnd`); otherwise the next segment runs.  At `inWait`,
the wait loop re-checks the children.  Returns the new flags, point, child
list, and the effects emitted by the segment. -/
def resumeRight (f : Flags) (co : Option Co) (pt : RunPoint)
    (subs : List Control) (t : Nat) :
    Flags × RunPoint × List Control × List Nat :=
  match pt with
  | .crashed n => (f, .crashed n, subs, [])
  | .inWait =>
      let r := recheckWait f subs
      (r.1, r.2.1, r.2.2, [])
  | .inBody k =>
      if f.canceled then
        let r := enterWait f subs
        (r.1, r.2.1, r.2.2, [])
      else
        let r := runCo k t
        let a := afterSeg f subs r.2
        (a.1, a.2.1, a.2.2, r.1)
  | .atTop =>
      match co with
      | none => (f, .atTop, subs, [])
      | some b =>
          let f1 := { f with running := true }
          let r := runCo b t
          let a := afterSeg f1 subs r.2
          (a.1, a.2.1, a.2.2, r.1)

/-- `Control.update`, at wall-clock time `t`, with the child-tree recursion
depth bounded by `fuel` (the Go recursion is bounded by the tree depth;
`fuel` = depth + 1 reproduces it exactly, and so does any larger fuel).

Order as in the source: read `isRestarting`; if `isCancelling`, apply the
cancellation and suppress the restart for this step (the Restart bit itself
survives); else if restarting, clear the Restart bit and apply the restart.
Then, if a body is installed and the control is running or restarting now,
perform one `kanata.YieldLeft()`.  Finally sweep the children: each child
gets its own `update`; when `stateStopping` is set the finished children
are left in place (the termination sequence will collect them), otherwise
finished children are released and filtered out.  The returned trace is the
body segment's effects followed by the children's, in order. -/
def updateF : Nat → Control → Nat → Control × List Nat
  | 0, c, _ => (c, [])
  | fuel + 1, .mk f co pt subs, t =>
      let restartNow0 := f.actRestart
      let fr : Flags × Bool :=
        if f.actCancel then (applyCancelF f, false)
        else if restartNow0 then (applyRestartF f, true)
        else (f, false)
      let f1 := fr.1
      let restartNow := fr.2
      let rr :=
        if co.isSome && (f1.running || restartNow) then
          resumeRight f1 co pt subs t
        else (f1, pt, subs, [])
      let f2 := rr.1
      let pt2 := rr.2.1
      let subs2 := rr.2.2.1
      let tr := rr.2.2.2
      let rs := subs2.map (fun s => updateF fuel s t)
      let subs3 :=
        if f2.stopping then rs.map Prod.fst
        else (rs.map Prod.fst).filter (fun s => !s.IsDone)
      (.mk f2 co pt2 subs3, tr ++ (rs.map Prod.snd).flatten)

/-- Run a sequence of driver steps at the given times, concatenating the
traces. -/
def runUpdates (fuel : Nat) : List Nat → Control → Control × List Nat
  | [], c => (c, [])
  | t :: ts, c =>
      let r := updateF fuel c t
      let r2 := runUpdates fuel ts r.1
      (r2.1, r.2 ++ r2.2)

/-! ## Script (script.go) -/

/-- `carrot.Start`: a script whose base control is a fresh `NewControl`
initialized with the body; the body only starts on the first `Update`. -/
def ScriptStart (b : Co) : Control := NewControl.initCo (some b)

/-- `carrot.Create`: an inactive script — `initialize(nil)` on a fresh
control. -/
def ScriptCreate : Control := NewControl.initCo none

/-! ## Concrete scenario states used by the theorems below -/

/-- The flag word of a control whose body is mid-run: `stateRunning` set,
nothing else. -/
def flRun : Flags :=
  { running := true, stopping := false, canceled := false,
    actCancel := false, actRestart := false }

/-- Mid-run flags with both a Cancel and a Restart request pending (the
state after `Cancel()` then `Restart()`, or after `Transition`). -/
def flBothPending : Flags :=
  { flRun with actCancel := true, actRestart := true }

/-- Mid-run flags with the cancellation latch already set. -/
def flRunLatched : Flags :=
  { flRun with canceled := true }

/-- Flags of a task whose body was cancelled and terminated, with a
surviving Restart request. -/
def flDoneCancelledRestarting : Flags :=
  { running := false, stopping := false, canceled := true,
    actCancel := false, actRestart := true }

/-- Flags of a task whose body was cancelled and terminated, with no
pending action. -/
def flDoneCancelled : Flags :=
  { running := false, stopping := false, canceled := true,
    actCancel := false, actRestart := false }

/-- Flags of a task that completed normally, with no pending action. -/
def flDoneClean : Flags :=
  { running := false, stopping := false, canceled := false,
    actCancel := false, actRestart := false }

/-- Flags of a cancelled task blocked in `waitForSubsToEnd`, waiting for
its children: still running, `stateStopping` set, latch set. -/
def flWaitCancelled : Flags :=
  { running := true, stopping := true, canceled := true,
    actCancel := false, actRestart := false }

/-- Flags of a normally-returned task blocked in `waitForSubsToEnd`. -/
def flWaitClean : Flags :=
  { running := true, stopping := true, canceled := false,
    actCancel := false, actRestart := false }

/-- A body that records the effect `1` exactly once per full run: one
increment, one yield, then return. -/
def counterBody : Co := .emit 1 (.yield .ret)

/-- A child control suspended mid-body at a yield: first component is its
installed body, second its current continuation. -/
def mkSusp (q : Co × Co) : Control :=
  .mk flRun (some q.1) (.inBody q.2) []

/-- The state such a child reaches once a cancellation has swept it: latch
set, body terminated, goroutine parked at the top of its loop. -/
def doneChild (q : Co × Co) : Control :=
  .mk { running := false, stopping := false, canceled := true,
        actCancel := false, actRestart := false } (some q.1) .atTop []

/-- The counter script after one update: suspended mid-run. -/
def c1mid : Control := (updateF 1 (ScriptStart counterBody) 0).1

/-- A parent suspended mid-body with one child suspended mid-body. -/
def c2parent : Control :=
  .mk flRun (some .ret) (.inBody (.yield .ret))
    [.mk flRun (some .ret) (.inBody (.yield .ret)) []]

/-- A parent whose body will return on the next resume, with one child
suspended mid-body. -/
def c3parent : Control :=
  .mk flRun (some .ret) (.inBody .ret)
    [.mk flRun (some .ret) (.inBody (.yield .ret)) []]

/-- The counter script run to completion (two updates). -/
def c5done : Control := (runUpdates 1 [0, 0] (ScriptStart counterBody)).1

/-- A control suspended inside `Sleep(1500ns)` that started at time 0, with
one effect recorded after the sleep. -/
def c7sleeper : Control :=
  .mk flRun (some .ret) (.inBody (.sleepW 0 1500 (.emit 1 .ret))) []

/-! ## Helper lemmas -/

/-- Flattening a list of empty traces yields the empty trace. -/
theorem flattenNil {α : Type} (l : List α) (f : α → List Nat)
    (h : ∀ a, f a = []) : (l.map f).flatten = [] := by
  induction l with
  | nil => rfl
  | cons x xs ih => simp [h x, ih]

/-- A pointwise-true predicate holds of every list. -/
theorem allTrue {α : Type} (l : List α) (f : α → Bool)
    (h : ∀ a, f a = true) : l.all f = true := by
  induction l with
  | nil => rfl
  | cons x xs ih => simp [h x, ih]

/-- A predicate true on the image of a map holds of every mapped list. -/
theorem allTrueMap {α β : Type} (l : List α) (f : α → β) (p : β → Bool)
    (h : ∀ a, p (f a) = true) : (l.map f).all p = true := by
  induction l with
  | nil => rfl
  | cons x xs ih => simp [h x, ih]

/-- Sweeping a cancel-marked, mid-body child applies the cancellation: the
`Yield` it is blocked in panics with `ErrCancelled` before any statement of
the continuation runs, `catchCancellation` swallows it, `waitForSubsToEnd`
finds no grandchildren, and the child parks, done, with its latch set and
an empty trace. -/
theorem childCancelUpd (q : Co × Co) (t : Nat) :
    updateF 1 (Control.Cancel (mkSusp q)) t = (doneChild q, []) := rfl

/-- One cancel sweep over any list of mid-body children finishes them all
with no effects. -/
theorem sweepCancelled (qs : List (Co × Co)) (t : Nat) :
    ((qs.map mkSusp).map Control.Cancel).map (fun s => updateF 1 s t)
      = qs.map (fun q => (doneChild q, [])) := by
  induction qs with
  | nil => rfl
  | cons q qs ih => simp [childCancelUpd, ih]

/-- Every `doneChild` state reports done. -/
theorem doneChildIsDone (q : Co × Co) : Control.IsDone (doneChild q) = true := rfl

/-- An update of a control with the running bit set and no body installed
changes nothing: `loopRunner` stays parked at its first `YieldRight`, the
running bit is never cleared, and no work is ever performed. -/
theorem nilBodyFix (t : Nat) :
    updateF 1 (.mk flRun none .atTop []) t = (.mk flRun none .atTop [], []) := rfl

/-- Driving the no-body fixpoint any number of steps changes nothing. -/
theorem nilBodyFixRun (ts : List Nat) :
    runUpdates 1 ts (.mk flRun none .atTop [])
      = (.mk flRun none .atTop [], []) := by
  induction ts with
  | nil => rfl
  | cons t ts ih => simp [runUpdates, nilBodyFix, ih]

/-! ## The claims -/

/-- Claim C5: restart correctness.  The counter script (`counterBody`
records effect `1` exactly once per full run) runs to completion in two
updates recording `[1]`; `Restart()` on the done script followed by two
more updates re-runs the body from the beginning, recording `[1]` again and
reaching done; the total count of recorded increments is exactly 2. -/
theorem claim_C5 :
    (runUpdates 1 [0, 0] (ScriptStart counterBody)).2 = [1] ∧
    Control.IsDone c5done = true ∧
    (runUpdates 1 [0, 0] (Control.Restart c5done)).2 = [1] ∧
    Control.IsDone (runUpdates 1 [0, 0] (Control.Restart c5done)).1 = true ∧
    ((runUpdates 1 [0, 0] (ScriptStart counterBody)).2
      ++ (runUpdates 1 [0, 0] (Control.Restart c5done)).2).count 1 = 2 := by
  decide

/-- Claim C6: the code contradicts the claim.  `Create()` calls
`initialize(nil)`, which requests a Restart, so `IsDone()` is false before
any update; and because `loopRunner` sets the `stateRunning` bit at
creation and no update ever performs a `YieldLeft` on a control without a
body, the bit is never cleared: `IsDone()` stays false after every later
update as well (while, consistently with the claim's last part, no body
ever executes — every trace is empty). -/
theorem claim_C6 :
    Control.IsDone ScriptCreate = false ∧
    ∀ ts : List Nat,
      Control.IsDone (runUpdates 1 ts ScriptCreate).1 = false ∧
      (runUpdates 1 ts ScriptCreate).2 = [] := by
  refine ⟨rfl, fun ts => ?_⟩
  cases ts with
  | nil => exact ⟨rfl, rfl⟩
  | cons t ts =>
      have h1 : updateF 1 ScriptCreate t = (.mk flRun none .atTop [], []) := rfl
      simp [runUpdates, h1, nilBodyFixRun]
      rfl

/-- Claim C7 counterexample: a body sleeping for a duration of 1500ns that
started at time 0 is resumed at time 1000: `Sleep` compares
`elapsed.Microseconds() >= duration.Microseconds()`, i.e. `1 >= 1`, so the
sleep completes and the rest of the body runs (effect `1` is recorded and
the body finishes) although only 1000ns < 1500ns of wall-clock time have
elapsed. -/
theorem claim_C7_counterexample :
    (updateF 1 c7sleeper 1000).2 = [1] ∧
    Control.point (updateF 1 c7sleeper 1000).1 = .atTop ∧
    Control.IsRunning (updateF 1 c7sleeper 1000).1 = false ∧
    (1000 : Nat) < 1500 := by
  decide

/-- Claim C8: the code contradicts the claim.  `sliceSet.Remove` drops the
slice returned by `slices.Delete`, so the receiver keeps its original
length: removing 1 from the set {1,2} leaves the observed contents
`[2, 2]` — the element 2 now occurs twice and a full `Each` sweep visits it
twice — and removing 5 from the singleton {5} leaves `[5]`, so after
`Add(5)` then `Remove(5)` the set still contains 5. -/
theorem claim_C8 :
    sliceSet.Remove (sliceSet.Add (sliceSet.Add ([] : List Nat) 1) 2) 1 = [2, 2] ∧
    (sliceSet.Remove (sliceSet.Add (sliceSet.Add ([] : List Nat) 1) 2) 1).count 2 = 2 ∧
    sliceSet.Each
      (sliceSet.Remove (sliceSet.Add (sliceSet.Add ([] : List Nat) 1) 2) 1)
      (fun x => [x]) = [2, 2] ∧
    sliceSet.Remove (sliceSet.Add ([] : List Nat) 5) 5 = [5] ∧
    5 ∈ sliceSet.Remove (sliceSet.Add ([] : List Nat) 5) 5 := by
  decide

/-- Claim C1 counterexample: start the counter script and update once, so
the body is suspended mid-run; then `Cancel()` followed by `Restart()`.
The next update applies the cancellation (empty trace), but the task is not
done — the Restart bit survives — and the update after that re-runs the
body from the beginning, recording the effect `1` again.  The Restart
request made while a Cancel was pending was therefore not discarded. -/
theorem claim_C1_counterexample :
    (updateF 1 (Control.Restart (Control.Cancel c1mid)) 0).2 = [] ∧
    Control.IsDone (updateF 1 (Control.Restart (Control.Cancel c1mid)) 0).1 = false ∧
    Control.isRestarting (updateF 1 (Control.Restart (Control.Cancel c1mid)) 0).1 = true ∧
    (updateF 1 (updateF 1 (Control.Restart (Control.Cancel c1mid)) 0).1 0).2 = [1] := by
  decide

/-- Claim C1 (amended): `Cancel()` overwrites the whole pending-action word
(discarding a pending Restart bit), while `Restart()` only ORs its bit in
and preserves a pending Cancel, so after `cancel()` then `restart()` both
bits are pending.  The next update applies the cancellation only — the body
is terminated without executing a statement and is not restarted that step
— but the Restart bit survives, so the task does not report done, and the
following update applies the restart and re-enters the body from the
beginning. -/
theorem claim_C1 (b k k2 : Co) (tr : List Nat) (t1 t2 : Nat)
    (hrun : runCo b t2 = (tr, ([], .suspended k2))) :
    Control.Restart (Control.Cancel (.mk flRun (some b) (.inBody k) []))
      = .mk flBothPending (some b) (.inBody k) [] ∧
    updateF 1 (.mk flBothPending (some b) (.inBody k) []) t1
      = (.mk flDoneCancelledRestarting (some b) .atTop [], []) ∧
    Control.IsDone (.mk flDoneCancelledRestarting (some b) .atTop []) = false ∧
    updateF 1 (.mk flDoneCancelledRestarting (some b) .atTop []) t2
      = (.mk flRun (some b) (.inBody k2) [], tr) := by
  refine ⟨rfl, rfl, rfl, ?_⟩
  simp [updateF, resumeRight, afterSeg, applyRestartF, flRun,
        flDoneCancelledRestarting, hrun, mkFresh]

/-- Claim C1 witness: the amended claim at the counter body. -/
theorem claim_C1_witness :
    runCo counterBody 0 = ([1], ([], .suspended .ret)) ∧
    (Control.Restart (Control.Cancel
        (.mk flRun (some counterBody) (.inBody (.yield .ret)) []))
      = .mk flBothPending (some counterBody) (.inBody (.yield .ret)) [] ∧
    updateF 1 (.mk flBothPending (some counterBody) (.inBody (.yield .ret)) []) 0
      = (.mk flDoneCancelledRestarting (some counterBody) .atTop [], []) ∧
    Control.IsDone (.mk flDoneCancelledRestarting (some counterBody) .atTop [])
      = false ∧
    updateF 1 (.mk flDoneCancelledRestarting (some counterBody) .atTop []) 0
      = (.mk flRun (some counterBody) (.inBody .ret) [], [1])) :=
  ⟨by decide, claim_C1 counterBody (.yield .ret) .ret [1] 0 0 (by decide)⟩

/-- Claim C2 counterexample: a running task with one child suspended at a
yield.  After `Cancel()` and one update, `isDone()` is still false — the
parent is blocked in `waitForSubsToEnd` waiting for the child sweep that
the same update already performed; a second update is needed before
`isDone()` is true. -/
theorem claim_C2_counterexample :
    Control.IsDone (updateF 2 (Control.Cancel c2parent) 0).1 = false ∧
    (updateF 2 (Control.Cancel c2parent) 0).2 = [] ∧
    Control.IsDone (updateF 2 (updateF 2 (Control.Cancel c2parent) 0).1 0).1
      = true := by
  decide

/-- Claim C2 (amended): `cancel()` is deferred — on a running task it has
no immediately observable effect (`isDone` stays false, `isRunning` stays
true).  Once the next update reaches the task, its body executes no further
statement (the pending `Yield` panics with `ErrCancelled` before any body
code runs), and neither does any descendant already suspended at a yield.
`isDone()` is true after one update when the task has no registered
children; with suspended children one update cancels and finishes every
child but leaves the parent blocked in `waitForSubsToEnd`, and `isDone()`
is true after a second update. -/
theorem claim_C2 (pb k : Co) (ks : List (Co × Co)) (t1 t2 t3 : Nat)
    (hne : ks ≠ []) :
    Control.IsDone
      (Control.Cancel (.mk flRun (some pb) (.inBody k) (ks.map mkSusp))) = false ∧
    Control.IsRunning
      (Control.Cancel (.mk flRun (some pb) (.inBody k) (ks.map mkSusp))) = true ∧
    updateF 1 (Control.Cancel (.mk flRun (some pb) (.inBody k) [])) t1
      = (.mk flDoneCancelled (some pb) .atTop [], []) ∧
    Control.IsDone (.mk flDoneCancelled (some pb) .atTop []) = true ∧
    updateF 2 (Control.Cancel (.mk flRun (some pb) (.inBody k) (ks.map mkSusp))) t2
      = (.mk flWaitCancelled (some pb) .inWait (ks.map doneChild), []) ∧
    Control.IsDone (.mk flWaitCancelled (some pb) .inWait (ks.map doneChild))
      = false ∧
    updateF 2 (.mk flWaitCancelled (some pb) .inWait (ks.map doneChild)) t3
      = (.mk flDoneCancelled (some pb) .atTop [], []) := by
  have hall : (List.map doneChild ks).all Control.IsDone = true :=
    allTrueMap ks doneChild Control.IsDone (fun q => rfl)
  refine ⟨rfl, rfl, rfl, rfl, ?_, rfl, ?_⟩
  · obtain ⟨q, ks', rfl⟩ : ∃ q ks', ks = q :: ks' := by
      cases ks with
      | nil => exact absurd rfl hne
      | cons q ks' => exact ⟨q, ks', rfl⟩
    simp [updateF, Control.Cancel, applyCancelF, resumeRight, enterWait,
          flRun, flWaitCancelled, mkSusp, doneChild, Control.IsDone,
          Control.IsRunning, Control.isRestarting, Control.flags]
  · simp [updateF, resumeRight, recheckWait, flWaitCancelled,
          flDoneCancelled, hall]

/-- Claim C2 witness: the amended claim with one suspended child. -/
theorem claim_C2_witness :
    ([((.ret : Co), (.yield .ret : Co))] : List (Co × Co)) ≠ [] ∧
    (Control.IsDone
      (Control.Cancel (.mk flRun (some .ret) (.inBody (.yield .ret))
        ([((.ret : Co), (.yield .ret : Co))].map mkSusp))) = false ∧
    Control.IsRunning
      (Control.Cancel (.mk flRun (some .ret) (.inBody (.yield .ret))
        ([((.ret : Co), (.yield .ret : Co))].map mkSusp))) = true ∧
    updateF 1 (Control.Cancel (.mk flRun (some .ret) (.inBody (.yield .ret)) [])) 0
      = (.mk flDoneCancelled (some .ret) .atTop [], []) ∧
    Control.IsDone (.mk flDoneCancelled (some .ret) .atTop []) = true ∧
    updateF 2 (Control.Cancel (.mk flRun (some .ret) (.inBody (.yield .ret))
        ([((.ret : Co), (.yield .ret : Co))].map mkSusp))) 0
      = (.mk flWaitCancelled (some .ret) .inWait
          ([((.ret : Co), (.yield .ret : Co))].map doneChild), []) ∧
    Control.IsDone (.mk flWaitCancelled (some .ret) .inWait
        ([((.ret : Co), (.yield .ret : Co))].map doneChild)) = false ∧
    updateF 2 (.mk flWaitCancelled (some .ret) .inWait
        ([((.ret : Co), (.yield .ret : Co))].map doneChild)) 0
      = (.mk flDoneCancelled (some .ret) .atTop [], [])) :=
  ⟨by decide,
   claim_C2 .ret (.yield .ret) [((.ret : Co), (.yield .ret : Co))] 0 0 0
     (by decide)⟩

/-- Claim C3 counterexample: a task whose body returns on this update while
one child is suspended at a yield.  `waitForSubsToEnd` only marks the child
Cancel-pending and then waits; the child is finished by this same update's
child sweep, but the parent stays blocked, so after the update the task is
not done and the child is still registered — contrary to the claim that the
child subtree is driven to completion and released inside the termination
sequence without consuming additional external driver steps. -/
theorem claim_C3_counterexample :
    (updateF 2 c3parent 0).2 = [] ∧
    Control.IsDone (updateF 2 c3parent 0).1 = false ∧
    (Control.subs (updateF 2 c3parent 0).1).length = 1 ∧
    Control.IsDone (updateF 2 (updateF 2 c3parent 0).1 0).1 = true ∧
    (Control.subs (updateF 2 (updateF 2 c3parent 0).1 0).1).length = 0 := by
  decide

/-- Claim C3 (amended): when a task's body returns (normally or via
cancellation), `waitForSubsToEnd` marks every currently-registered child
Cancel-pending inside the termination sequence and then waits.  The
children are advanced by the enclosing update's child sweep — in that same
external step every suspended child is cancelled and finishes — but the
parent's termination sequence only observes this on the next external
driver step, at which point it releases every child, clears the children
set, and the task reports done.  With no (live) children the termination
sequence completes within the body's own step. -/
theorem claim_C3 (pb k : Co) (tr : List Nat) (ks : List (Co × Co)) (t1 t2 : Nat)
    (hrun : runCo k t1 = (tr, ([], .returned)))
    (hne : ks ≠ []) :
    updateF 1 (.mk flRun (some pb) (.inBody k) []) t1
      = (.mk flDoneClean (some pb) .atTop [], tr) ∧
    Control.IsDone (.mk flDoneClean (some pb) .atTop []) = true ∧
    updateF 2 (.mk flRun (some pb) (.inBody k) (ks.map mkSusp)) t1
      = (.mk flWaitClean (some pb) .inWait (ks.map doneChild), tr) ∧
    Control.IsDone (.mk flWaitClean (some pb) .inWait (ks.map doneChild))
      = false ∧
    (ks.map doneChild).all Control.IsDone = true ∧
    updateF 2 (.mk flWaitClean (some pb) .inWait (ks.map doneChild)) t2
      = (.mk flDoneClean (some pb) .atTop [], []) := by
  have hall : (List.map doneChild ks).all Control.IsDone = true :=
    allTrueMap ks doneChild Control.IsDone (fun q => rfl)
  refine ⟨?_, rfl, ?_, rfl, hall, ?_⟩
  · simp [updateF, resumeRight, enterWait, afterSeg, hrun, mkFresh,
          flRun, flDoneClean]
  · obtain ⟨q, ks', rfl⟩ : ∃ q ks', ks = q :: ks' := by
      cases ks with
      | nil => exact absurd rfl hne
      | cons q ks' => exact ⟨q, ks', rfl⟩
    simp [updateF, resumeRight, enterWait, afterSeg, hrun, mkFresh,
          flRun, flWaitClean, mkSusp, doneChild, Control.IsDone,
          Control.Cancel, Control.IsRunning, Control.isRestarting,
          Control.flags, applyCancelF]
  · simp [updateF, resumeRight, recheckWait, flWaitClean, flDoneClean, hall]

/-- Claim C3 witness: the amended claim at a body that returns immediately,
with one suspended child. -/
theorem claim_C3_witness :
    runCo .ret 0 = ([], ([], .returned)) ∧
    ([((.ret : Co), (.yield .ret : Co))] : List (Co × Co)) ≠ [] ∧
    (updateF 1 (.mk flRun (some .ret) (.inBody .ret) []) 0
      = (.mk flDoneClean (some .ret) .atTop [], []) ∧
    Control.IsDone (.mk flDoneClean (some .ret) .atTop []) = true ∧
    updateF 2 (.mk flRun (some .ret) (.inBody .ret)
        ([((.ret : Co), (.yield .ret : Co))].map mkSusp)) 0
      = (.mk flWaitClean (some .ret) .inWait
          ([((.ret : Co), (.yield .ret : Co))].map doneChild), []) ∧
    Control.IsDone (.mk flWaitClean (some .ret) .inWait
        ([((.ret : Co), (.yield .ret : Co))].map doneChild)) = false ∧
    ([((.ret : Co), (.yield .ret : Co))].map doneChild).all Control.IsDone
      = true ∧
    updateF 2 (.mk flWaitClean (some .ret) .inWait
        ([((.ret : Co), (.yield .ret : Co))].map doneChild)) 0
      = (.mk flDoneClean (some .ret) .atTop [], [])) :=
  ⟨by decide, by decide,
   claim_C3 .ret .ret [] [((.ret : Co), (.yield .ret : Co))] 0 0
     (by decide) (by decide)⟩

/-- Claim C4: transition atomicity.  `Transition(newBody)` replaces the
body and sets Cancel-then-Restart in one call, between driver steps.  The
next update terminates the old body without executing a single further
statement of it (the pending `Yield` panics with `ErrCancelled` first; the
trace is empty and the old continuation is discarded from the state), and
the update after that starts the new body from its beginning. -/
theorem claim_C4 (b k nb k2 : Co) (tr2 : List Nat) (t1 t2 : Nat)
    (hrun : runCo nb t2 = (tr2, ([], .suspended k2))) :
    Control.Transition nb (.mk flRun (some b) (.inBody k) [])
      = .mk flBothPending (some nb) (.inBody k) [] ∧
    updateF 1 (.mk flBothPending (some nb) (.inBody k) []) t1
      = (.mk flDoneCancelledRestarting (some nb) .atTop [], []) ∧
    updateF 1 (.mk flDoneCancelledRestarting (some nb) .atTop []) t2
      = (.mk flRun (some nb) (.inBody k2) [], tr2) := by
  refine ⟨rfl, rfl, ?_⟩
  simp [updateF, resumeRight, afterSeg, applyRestartF, flRun,
        flDoneCancelledRestarting, hrun, mkFresh]

/-- Claim C4 witness: the claim at a transition from a suspended body to a
body that emits 3. -/
theorem claim_C4_witness :
    runCo (.emit 3 (.yield .ret)) 0 = ([3], ([], .suspended .ret)) ∧
    (Control.Transition (.emit 3 (.yield .ret))
        (.mk flRun (some counterBody) (.inBody (.yield .ret)) [])
      = .mk flBothPending (some (.emit 3 (.yield .ret))) (.inBody (.yield .ret)) [] ∧
    updateF 1 (.mk flBothPending (some (.emit 3 (.yield .ret)))
        (.inBody (.yield .ret)) []) 0
      = (.mk flDoneCancelledRestarting (some (.emit 3 (.yield .ret))) .atTop [], []) ∧
    updateF 1 (.mk flDoneCancelledRestarting (some (.emit 3 (.yield .ret))) .atTop []) 0
      = (.mk flRun (some (.emit 3 (.yield .ret))) (.inBody .ret) [], [3])) :=
  ⟨by decide,
   claim_C4 counterBody (.yield .ret) (.emit 3 (.yield .ret)) .ret [3] 0 0
     (by decide)⟩

/-- Claim C7 (amended): `Sleep` compares elapsed and requested durations
after truncating both to whole microseconds
(`elapsed.Microseconds() >= sleepDuration.Microseconds()`).  Consequently a
sleeping task stays suspended as long as the elapsed nanoseconds are below
the duration truncated to whole microseconds, and the sleep completes
exactly when the truncated elapsed time reaches the truncated duration —
so the wall-clock lower bound is `(D / 1000) * 1000` nanoseconds, not `D`
itself. -/
theorem claim_C7 (b k : Co) (s d t : Nat) :
    (t - s < (d / 1000) * 1000 →
      updateF 1 (.mk flRun (some b) (.inBody (.sleepW s d k)) []) t
        = (.mk flRun (some b) (.inBody (.sleepW s d k)) [], [])) ∧
    ((d / 1000) * 1000 ≤ t - s →
      runCo (.sleepW s d k) t = runCo k t) := by
  constructor
  · intro h
    have h2 : (t - s) / 1000 < d / 1000 :=
      (Nat.div_lt_iff_lt_mul (by norm_num)).mpr h
    simp [updateF, resumeRight, afterSeg, runCo, flRun,
          Nat.not_le.mpr h2]
  · intro h
    have h2 : d / 1000 ≤ (t - s) / 1000 :=
      (Nat.le_div_iff_mul_le (by norm_num)).mpr h
    simp [runCo, h2]

/-- Claim C7 witness: a sleep of 5000ns resumed 3000ns in stays asleep;
a sleep of 6000ns resumed 7000ns in completes. -/
theorem claim_C7_witness :
    ((3000 : Nat) - 0 < ((5000 : Nat) / 1000) * 1000 ∧
     updateF 1 (.mk flRun (some .ret) (.inBody (.sleepW 0 5000 .ret)) []) 3000
       = (.mk flRun (some .ret) (.inBody (.sleepW 0 5000 .ret)) [], [])) ∧
    (((6000 : Nat) / 1000) * 1000 ≤ 7000 - 0 ∧
     runCo (.sleepW 0 6000 .ret) 7000 = runCo .ret 7000) :=
  ⟨⟨by decide, (claim_C7 .ret .ret 0 5000 3000).1 (by decide)⟩,
   ⟨by decide, (claim_C7 .ret .ret 0 6000 7000).2 (by decide)⟩⟩

/-- Claim C9: the cancellation signal is caught exactly once, at
`catchCancellation` — the deferred recover around the body call in
`startCoroutine` — and converted there into normal termination (the update
proceeds into `waitForSubsToEnd` and the task parks, done); it never
escapes that boundary.  Any other panic value passes through the recover
and is re-raised unchanged, escaping the scheduler (the control's goroutine
dies with it; the crash records the value intact). -/
theorem claim_C9 (b k : Co) (n t1 t2 : Nat) (tr : List Nat)
    (hthrow : runCo k t2 = (tr, ([], .threw n))) :
    catchCancellation (some .errCancelled) = none ∧
    catchCancellation none = none ∧
    catchCancellation (some (.err n)) = some (.err n) ∧
    updateF 1 (.mk flRunLatched (some b) (.inBody k) []) t1
      = (.mk flDoneCancelled (some b) .atTop [], []) ∧
    updateF 1 (.mk flRun (some b) (.inBody k) []) t2
      = (.mk flRun (some b) (.crashed n) [], tr) := by
  refine ⟨rfl, rfl, rfl, rfl, ?_⟩
  simp [updateF, resumeRight, afterSeg, flRun, hthrow, mkFresh]

/-- Claim C9 witness: a body that records effect 2 and then panics with the
non-cancellation value 4. -/
theorem claim_C9_witness :
    runCo (.emit 2 (.throwE 4)) 0 = ([2], ([], .threw 4)) ∧
    (catchCancellation (some .errCancelled) = none ∧
    catchCancellation none = none ∧
    catchCancellation (some (.err 4)) = some (.err 4) ∧
    updateF 1 (.mk flRunLatched (some .ret) (.inBody (.emit 2 (.throwE 4))) []) 0
      = (.mk flDoneCancelled (some .ret) .atTop [], []) ∧
    updateF 1 (.mk flRun (some .ret) (.inBody (.emit 2 (.throwE 4))) []) 0
      = (.mk flRun (some .ret) (.crashed 4) [], [2])) :=
  ⟨by decide, claim_C9 .ret (.emit 2 (.throwE 4)) 4 0 0 [2] (by decide)⟩

/-- Claim C10: `Restart()` on a task that is running mid-body with no
pending Cancel does not cancel it and does not re-enter the body from the
beginning: the next update consumes the Restart flag (`applyRestart` on an
unset latch is the identity on the other flags) and behaves exactly like an
update with no pending action, resuming the body at its suspension point;
and when that body segment returns on its own, the task parks done — with
no fresh run on subsequent updates. -/
theorem claim_C10 (fuel : Nat) (b k : Co) (cs : List Control) (t t2 : Nat)
    (tr : List Nat)
    (hret : runCo k t = (tr, ([], .returned))) :
    updateF (fuel + 1) (Control.Restart (.mk flRun (some b) (.inBody k) cs)) t
      = updateF (fuel + 1) (.mk flRun (some b) (.inBody k) cs) t ∧
    updateF 1 (Control.Restart (.mk flRun (some b) (.inBody k) [])) t
      = (.mk flDoneClean (some b) .atTop [], tr) ∧
    Control.IsDone (.mk flDoneClean (some b) .atTop []) = true ∧
    updateF 1 (.mk flDoneClean (some b) .atTop []) t2
      = (.mk flDoneClean (some b) .atTop [], []) := by
  refine ⟨rfl, ?_, rfl, rfl⟩
  simp [updateF, resumeRight, afterSeg, enterWait, applyRestartF,
        Control.Restart, flRun, flDoneClean, hret, mkFresh]

/-- Claim C10 witness: restarting a task suspended just before recording
effect 6 and returning. -/
theorem claim_C10_witness :
    runCo (.emit 6 .ret) 0 = ([6], ([], .returned)) ∧
    (updateF 1 (Control.Restart (.mk flRun (some .ret) (.inBody (.emit 6 .ret)) [])) 0
      = updateF 1 (.mk flRun (some .ret) (.inBody (.emit 6 .ret)) []) 0 ∧
    updateF 1 (Control.Restart (.mk flRun (some .ret) (.inBody (.emit 6 .ret)) [])) 0
      = (.mk flDoneClean (some .ret) .atTop [], [6]) ∧
    Control.IsDone (.mk flDoneClean (some .ret) .atTop []) = true ∧
    updateF 1 (.mk flDoneClean (some .ret) .atTop []) 0
      = (.mk flDoneClean (some .ret) .atTop [], [])) :=
  ⟨by decide, claim_C10 0 .ret (.emit 6 .ret) [] 0 0 [6] (by decide)⟩

end Carrot
